import Mathlib

/- Shallow embedding of the VQA benchmarking harness: the LLM answer judge
   (llm_judge.py), the three evaluation drivers (zero_shot.py,
   agent_pipelines/classic_agent.py, agent_pipelines/dl_agent.py) and the
   OpenCV scene detector (classic_agent.py). Model backends and the OpenCV
   primitives are opaque collaborators returning Except values; Python
   floats are modelled as exact rationals; Python exceptions are modelled
   as Except.error. String helpers model the ASCII fragment of the Python
   string operations, which covers every literal the code manipulates. -/

/- Whitespace stripped by Python str.strip(). -/
def pyIsSpace (c : Char) : Bool :=
  decide (c = ' ') || decide (c = '\t') || decide (c = '\n') ||
  decide (c = '\x0b') || decide (c = '\x0c') || decide (c = '\r')

/- Python str.strip(): drop whitespace from both ends. -/
def pyStrip (s : List Char) : List Char :=
  ((s.dropWhile pyIsSpace).reverse.dropWhile pyIsSpace).reverse

/- Python str.lower(), ASCII fragment. -/
def pyLower (s : List Char) : List Char :=
  s.map Char.toLower

/- Word characters of the regex word class, ASCII fragment; the regex
   word boundary separates a word character from a non-word character. -/
def isWordChar (c : Char) : Bool :=
  (decide ('a' ≤ c) && decide (c ≤ 'z')) ||
  (decide ('A' ≤ c) && decide (c ≤ 'Z')) ||
  (decide ('0' ≤ c) && decide (c ≤ '9')) ||
  decide (c = '_')

/- The position right after an occurrence of a word is a boundary:
   either the end of the string or a non-word character. -/
def rightBoundary (r : List Char) : Bool :=
  match r with
  | [] => true
  | c :: _ => !isWordChar c

/- The word w occurs at the head of s, with a word boundary after it. -/
def wordAt : List Char → List Char → Bool
  | [], s => rightBoundary s
  | _ :: _, [] => false
  | c :: w, d :: s => decide (c = d) && wordAt w s

/- Scan s for an occurrence of w between word boundaries; prev records
   whether the character immediately before the current position is a
   word character (false at the start of the string). -/
def scanWord (w : List Char) : Bool → List Char → Bool
  | prev, [] => !prev && wordAt w []
  | prev, c :: s => (!prev && wordAt w (c :: s)) || scanWord w (isWordChar c) s

/- re.search with a both-sides word-bounded word pattern, as used on the
   judge decision string. -/
def containsWord (s w : List Char) : Bool :=
  scanWord w false s

/- Declarative reading of the same regex search, used to state claims:
   s splits as l ++ w ++ r where l ends at a word boundary and r starts
   at one. -/
def StandaloneWord (w s : List Char) : Prop :=
  ∃ l r, s = l ++ w ++ r ∧
    (l = [] ∨ ∃ l₀ c, l = l₀ ++ [c] ∧ isWordChar c = false) ∧
    (r = [] ∨ ∃ c r₀, r = c :: r₀ ∧ isWordChar c = false)

def yesWord : List Char := "yes".data

def noWord : List Char := "no".data

/- A dataset row as consumed by the drivers (question, answer,
   image_path columns). -/
structure Row where
  question : String
  answer : String
  image_path : String
deriving DecidableEq

/- A model backend: inference(prompt, image_path, max_new_tokens) returns
   a list of completions or raises. -/
structure VLM where
  inference : String → Option String → Option Nat → Except String (List String)

/- JUDGE_PROMPT_TEMPLATE.format(question, ground_truth, model_answer)
   from llm_judge.py. -/
def judge_prompt (question ground_truth model_answer : String) : String :=
  "\nYou are an expert evaluator for a Visual Question Answering task.\n" ++
  "Your goal is to determine if the \"Model\x27s Answer\" correctly and concisely answers the \"Question\" based on the \"Ground Truth Answer\".\n\n" ++
  "The answer must be semantically equivalent, even if phrased differently.\n" ++
  "For \"Is the...\" questions, the answer must match (e.G., \"left\" matches \"on the left\").\n" ++
  "For \"What is the shape...\" questions, the answer must be the shape (e.g., \"square\" matches \"a red square\").\n" ++
  "For \"What is the color...\" questions, the answer must be the color (e.g., \"red\" matches \"the red one\").\n\n" ++
  "Respond with only \"Yes\" or \"No\". Do not provide any explanation.\n\n" ++
  "---\n" ++
  "Question: \"" ++ question ++ "\"\n" ++
  "Ground Truth Answer: \"" ++ ground_truth ++ "\"\n" ++
  "Model\x27s Answer: \"" ++ model_answer ++ "\"\n" ++
  "---\n\n" ++
  "Is the Model\x27s Answer correct?\n"

/- The response-parsing tail of judge_answer: empty response list gives 0,
   otherwise strip().lower() the first completion and search for the
   word-bounded yes, then the word-bounded no, defaulting to 0. -/
def parseJudgeResponse (response : List String) : Nat :=
  match response with
  | [] => 0
  | first :: _ =>
    let decision := pyLower (pyStrip first.data)
    if containsWord decision yesWord then 1
    else if containsWord decision noWord then 0
    else 0

/- judge_answer from llm_judge.py: build the judge prompt, call the judge
   model with max_new_tokens=5 and no image, map any inference failure
   to 0, and parse the response. -/
def judge_answer (vlm : VLM) (question model_answer ground_truth : String) : Nat :=
  match vlm.inference (judge_prompt question ground_truth model_answer) none (some 5) with
  | .error _ => 0
  | .ok response => parseJudgeResponse response

/- A detected scene fact: color, shape and the centroid coordinates. -/
structure SceneFact where
  color : String
  shape : String
  coords : Int × Int
deriving DecidableEq

/- Spatial moments of a contour, as returned by cv2.moments. -/
structure Moments where
  m00 : Rat
  m10 : Rat
  m01 : Rat
deriving DecidableEq

/- A decoded BGR image. -/
abbrev BGRImage := List (List (Nat × Nat × Nat))

/- A pixel in HSV space and an HSV image. -/
abbrev HSVImage := List (List (Nat × Nat × Nat))

/- A binary color mask. -/
abbrev Mask := List (List Bool)

/- A contour as a list of points. -/
abbrev Contour := List (Int × Int)

/- The OpenCV collaborator used by detect_objects; imread returns none when
   the file cannot be decoded, and the operations that can throw inside the
   detector's try block are modelled as Except. -/
structure CVBackend where
  imread : String → Option BGRImage
  cvtColorHSV : BGRImage → Except String HSVImage
  findContours : Mask → Except String (List Contour)
  contourArea : Contour → Rat
  arcLength : Contour → Rat
  approxPolyDP : Contour → Rat → List (Int × Int)
  moments : Contour → Moments

/- COLOR_BOUNDS from classic_agent.py, in dict insertion order. -/
def redLower : Nat × Nat × Nat := (0, 120, 70)

def redUpper : Nat × Nat × Nat := (10, 255, 255)

def red2Lower : Nat × Nat × Nat := (170, 120, 70)

def red2Upper : Nat × Nat × Nat := (180, 255, 255)

def greenLower : Nat × Nat × Nat := (35, 100, 100)

def greenUpper : Nat × Nat × Nat := (85, 255, 255)

def blueLower : Nat × Nat × Nat := (100, 150, 0)

def blueUpper : Nat × Nat × Nat := (140, 255, 255)

def yellowLower : Nat × Nat × Nat := (20, 100, 100)

def yellowUpper : Nat × Nat × Nat := (30, 255, 255)

def grayLower : Nat × Nat × Nat := (0, 0, 40)

def grayUpper : Nat × Nat × Nat := (180, 50, 220)

def COLOR_BOUNDS : List (String × (Nat × Nat × Nat) × (Nat × Nat × Nat)) :=
  [("red", redLower, redUpper),
   ("red2", red2Lower, red2Upper),
   ("green", greenLower, greenUpper),
   ("blue", blueLower, blueUpper),
   ("yellow", yellowLower, yellowUpper),
   ("gray", grayLower, grayUpper)]

/- cv2.inRange on one HSV pixel: channelwise closed-range test. -/
def inRangePix (lo hi p : Nat × Nat × Nat) : Bool :=
  decide (lo.1 ≤ p.1 ∧ p.1 ≤ hi.1 ∧
          lo.2.1 ≤ p.2.1 ∧ p.2.1 ≤ hi.2.1 ∧
          lo.2.2 ≤ p.2.2 ∧ p.2.2 ≤ hi.2.2)

/- cv2.inRange on a whole HSV image. -/
def inRangeImg (hsv : HSVImage) (lo hi : Nat × Nat × Nat) : Mask :=
  hsv.map (fun row => row.map (inRangePix lo hi))

/- cv2.bitwise_or on two masks. -/
def bitwiseOr (m1 m2 : Mask) : Mask :=
  List.zipWith (List.zipWith (fun a b => a || b)) m1 m2

/- Python int() on an exact rational: truncation toward zero. -/
def pyInt (q : Rat) : Int :=
  q.num.tdiv q.den

/- The shape classification of detect_objects: approximate the contour with
   4 percent of its arc length and call it a square exactly when the
   approximation has 4 vertices. -/
def shapeOf (b : CVBackend) (cnt : Contour) : String :=
  if (b.approxPolyDP cnt (0.04 * b.arcLength cnt)).length = 4 then "square" else "circle"

/- The centroid of detect_objects, from the zeroth and first moments. -/
def centroidOf (b : CVBackend) (cnt : Contour) : Int × Int :=
  (pyInt ((b.moments cnt).m10 / (b.moments cnt).m00),
   pyInt ((b.moments cnt).m01 / (b.moments cnt).m00))

/- The inner contour loop of detect_objects: skip contours with pixel area
   below 100 and contours with zero m00 moment, emit a fact otherwise. -/
def processContours (b : CVBackend) (color : String) : List Contour → List SceneFact
  | [] => []
  | cnt :: rest =>
    if b.contourArea cnt < 100 then processContours b color rest
    else if (b.moments cnt).m00 = 0 then processContours b color rest
    else ⟨color, shapeOf b cnt, centroidOf b cnt⟩ :: processContours b color rest

/- Find the contours of one mask and run the contour loop on them. -/
def colorFacts (b : CVBackend) (color : String) (mask : Mask) : Except String (List SceneFact) :=
  match b.findContours mask with
  | .error e => .error e
  | .ok cnts => .ok (processContours b color cnts)

/- One iteration of the COLOR_BOUNDS loop in detect_objects: the red2 entry
   is OR-combined with the red mask and relabelled red, the red entry is
   skipped, every other entry is processed under its own label. -/
def processEntry (b : CVBackend) (hsv : HSVImage)
    (e : String × (Nat × Nat × Nat) × (Nat × Nat × Nat)) : Except String (List SceneFact) :=
  let color := e.1
  let mask := inRangeImg hsv e.2.1 e.2.2
  if color = "red2" then
    colorFacts b "red" (bitwiseOr mask (inRangeImg hsv redLower redUpper))
  else if color = "red" then .ok []
  else colorFacts b color mask

/- The COLOR_BOUNDS loop of detect_objects, accumulating facts in entry
   order. -/
def detectEntries (b : CVBackend) (hsv : HSVImage) :
    List (String × (Nat × Nat × Nat) × (Nat × Nat × Nat)) → Except String (List SceneFact)
  | [] => .ok []
  | e :: rest =>
    match processEntry b hsv e with
    | .error err => .error err
    | .ok fs =>
      match detectEntries b hsv rest with
      | .error err => .error err
      | .ok more => .ok (fs ++ more)

/- The body of detect_objects after a successful decode. -/
def detectDecoded (b : CVBackend) (img : BGRImage) : Except String (List SceneFact) :=
  match b.cvtColorHSV img with
  | .error e => .error e
  | .ok hsv => detectEntries b hsv COLOR_BOUNDS

/- detect_objects from classic_agent.py: an undecodable image gives an
   empty list, and any error raised inside the try block is caught and
   also gives an empty list. -/
def detect_objects (b : CVBackend) (image_path : String) : List SceneFact :=
  match b.imread image_path with
  | none => []
  | some img =>
    match detectDecoded b img with
    | .ok objs => objs
    | .error _ => []

/- The single combined red mask: the red2 range mask OR-combined with the
   red range mask. -/
def redCombinedMask (hsv : HSVImage) : Mask :=
  bitwiseOr (inRangeImg hsv red2Lower red2Upper) (inRangeImg hsv redLower redUpper)

/- A by-color restatement of the COLOR_BOUNDS loop: one pass per emitted
   color, red processed exactly once through the combined mask. -/
def detectByColor (b : CVBackend) (hsv : HSVImage) : Except String (List SceneFact) :=
  match colorFacts b "red" (redCombinedMask hsv) with
  | .error e => .error e
  | .ok r =>
    match colorFacts b "green" (inRangeImg hsv greenLower greenUpper) with
    | .error e => .error e
    | .ok g =>
      match colorFacts b "blue" (inRangeImg hsv blueLower blueUpper) with
      | .error e => .error e
      | .ok bl =>
        match colorFacts b "yellow" (inRangeImg hsv yellowLower yellowUpper) with
        | .error e => .error e
        | .ok y =>
          match colorFacts b "gray" (inRangeImg hsv grayLower grayUpper) with
          | .error e => .error e
          | .ok gy => .ok (r ++ (g ++ (bl ++ (y ++ (gy ++ [])))))

/- The first completion of a response list, or the empty string
   (model_answer_list[0] if model_answer_list else ""). -/
def firstOrEmpty (l : List String) : String :=
  match l with
  | [] => ""
  | a :: _ => a

/- One row of run_zero_shot: raw question to the model under test, first
   completion judged. An inference exception propagates to the driver. -/
def zeroShotStep (vlm judge_vlm : VLM) (row : Row) : Except String (String × Nat) :=
  match vlm.inference row.question (some row.image_path) none with
  | .error e => .error e
  | .ok model_answer_list =>
    .ok (firstOrEmpty model_answer_list,
         judge_answer judge_vlm row.question (firstOrEmpty model_answer_list) row.answer)

/- The scene-context block rendered by run_classic_agent_pipeline. -/
def sceneContext (objects : List SceneFact) : String :=
  if objects = [] then
    "Scene Context: No objects were detected by the CV system."
  else
    objects.foldl
      (fun acc obj =>
        acc ++ "- A " ++ obj.color ++ " " ++ obj.shape ++ " at coordinates (" ++
          toString obj.coords.1 ++ ", " ++ toString obj.coords.2 ++ ")\n")
      "Scene Context: The following objects were detected:\n"

/- The enhanced prompt of run_classic_agent_pipeline. -/
def enhancedPrompt (objects : List SceneFact) (question : String) : String :=
  sceneContext objects ++ "\n" ++
  "Based *only* on the scene context provided above, answer the following question.\n" ++
  "Question: " ++ question

/- One row of run_classic_agent_pipeline: detect objects (never raising),
   build the enhanced prompt, query the model, judge the first completion. -/
def classicStep (cv : CVBackend) (vlm judge_vlm : VLM) (row : Row) : Except String (String × Nat) :=
  let objects := detect_objects cv row.image_path
  match vlm.inference (enhancedPrompt objects row.question) (some row.image_path) none with
  | .error e => .error e
  | .ok model_answer_list =>
    .ok (firstOrEmpty model_answer_list,
         judge_answer judge_vlm row.question (firstOrEmpty model_answer_list) row.answer)

/- The three prompts of run_dl_agent_pipeline. -/
def dlPlanPrompt (question : String) : String :=
  "To answer the question \x27" ++ question ++
  "\x27, what is the step-by-step reasoning plan I should follow? List the steps."

def dlExtractPrompt : String :=
  "Describe all objects in the image in detail. For each object, " ++
  "list its color, its shape, and its relative position (e.g., top-left, bottom-right)."

def dlFinalPrompt (question plan context : String) : String :=
  "You are a reasoning agent. Use the following information to answer the question.\n\n" ++
  "Original Question: " ++ question ++ "\n\n" ++
  "Reasoning Plan:\n" ++ plan ++ "\n\n" ++
  "Image Context:\n" ++ context ++ "\n\n" ++
  "Based on the plan and context, what is the final, concise answer to the original question?"

/- Agent step 1 of run_dl_agent_pipeline: the plan text, with the fixed
   placeholder substituted for an empty completion list. -/
def dlPlan (vlm : VLM) (row : Row) : Except String String :=
  match vlm.inference (dlPlanPrompt row.question) (some row.image_path) (some 100) with
  | .error e => .error e
  | .ok plan_list =>
    .ok (match plan_list with
         | [] => "No plan generated."
         | x :: _ => x)

/- Agent step 2 of run_dl_agent_pipeline: the context text, with the fixed
   placeholder substituted for an empty completion list. -/
def dlContext (vlm : VLM) (row : Row) : Except String String :=
  match vlm.inference dlExtractPrompt (some row.image_path) (some 150) with
  | .error e => .error e
  | .ok context_list =>
    .ok (match context_list with
         | [] => "No context extracted."
         | x :: _ => x)

/- One row of run_dl_agent_pipeline: plan, extract, synthesize, judge. -/
def dlStep (vlm judge_vlm : VLM) (row : Row) : Except String (String × Nat) :=
  match dlPlan vlm row with
  | .error e => .error e
  | .ok plan =>
    match dlContext vlm row with
    | .error e => .error e
    | .ok context =>
      match vlm.inference (dlFinalPrompt row.question plan context) (some row.image_path) none with
      | .error e => .error e
      | .ok model_answer_list =>
        .ok (firstOrEmpty model_answer_list,
             judge_answer judge_vlm row.question (firstOrEmpty model_answer_list) row.answer)

/- sum(scores) / len(scores) if scores else 0. -/
def computeAccuracy (scores : List Nat) : Rat :=
  if scores = [] then 0 else (scores.sum : Rat) / (scores.length : Rat)

/- The shared driver loop of the three run_* functions: process rows in
   order, appending the prediction and the score of each row; on the first
   exception stop and return 0.0 together with the predictions collected
   so far; on normal completion return the computed accuracy. -/
def runLoop (step : Row → Except String (String × Nat)) :
    List Row → List String → List Nat → Rat × List String
  | [], preds, scores => (computeAccuracy scores, preds)
  | row :: rest, preds, scores =>
    match step row with
    | .error _ => (0, preds)
    | .ok (p, s) => runLoop step rest (preds ++ [p]) (scores ++ [s])

/- The same loop observed through its two accumulator lists: the
   predictions and scores lists as they stand at whichever exit is taken. -/
def loopLists (step : Row → Except String (String × Nat)) :
    List Row → List String → List Nat → List String × List Nat
  | [], preds, scores => (preds, scores)
  | row :: rest, preds, scores =>
    match step row with
    | .error _ => (preds, scores)
    | .ok (p, s) => loopLists step rest (preds ++ [p]) (scores ++ [s])

/- run_zero_shot from zero_shot.py. -/
def run_zero_shot (vlm : VLM) (dataset : List Row) (judge_vlm : VLM) : Rat × List String :=
  runLoop (zeroShotStep vlm judge_vlm) dataset [] []

/- run_classic_agent_pipeline from classic_agent.py; the OpenCV
   collaborator is passed explicitly. -/
def run_classic_agent_pipeline (cv : CVBackend) (vlm : VLM) (dataset : List Row)
    (judge_vlm : VLM) : Rat × List String :=
  runLoop (classicStep cv vlm judge_vlm) dataset [] []

/- run_dl_agent_pipeline from dl_agent.py. -/
def run_dl_agent_pipeline (vlm : VLM) (dataset : List Row) (judge_vlm : VLM) : Rat × List String :=
  runLoop (dlStep vlm judge_vlm) dataset [] []

/- Whether a row step succeeds. -/
def stepOk (step : Row → Except String (String × Nat)) (row : Row) : Bool :=
  match step row with
  | .ok _ => true
  | .error _ => false

/- The prediction a successful row step collects. -/
def stepPredOf (step : Row → Except String (String × Nat)) (row : Row) : String :=
  match step row with
  | .ok (p, _) => p
  | .error _ => ""

/- The score a successful row step collects. -/
def stepScoreOf (step : Row → Except String (String × Nat)) (row : Row) : Nat :=
  match step row with
  | .ok (_, s) => s
  | .error _ => 0

/- Concrete fixtures used to evaluate the development on closed inputs. -/
def cRow1 : Row := ⟨"q1", "a1", "img1"⟩

def cRow2 : Row := ⟨"q2", "a2", "img2"⟩

def cRow3 : Row := ⟨"q3", "a3", "img3"⟩

/- A judge model that always answers Yes. -/
def cJudgeYes : VLM := ⟨fun _ _ _ => .ok ["Yes"]⟩

/- A model under test that always answers. -/
def cVlmOk : VLM := ⟨fun _ _ _ => .ok ["an answer"]⟩

/- A model under test that answers rows 1 and 2 and raises on the row
   whose question is q3. -/
def cexVlm : VLM := ⟨fun prompt _ _ => if prompt = "q3" then .error "backend failure" else .ok ["ans"]⟩

/- A model whose backend is down: every inference call raises. -/
def cFailVlm : VLM := ⟨fun _ _ _ => .error "backend down"⟩

/- A model that always returns an empty completion list. -/
def cVlmEmpty : VLM := ⟨fun _ _ _ => .ok []⟩

/- A judge model whose completion contains both words yes and no. -/
def cJudgeYesNo : VLM := ⟨fun _ _ _ => .ok ["yes and no"]⟩

/- The empty contour used as a concrete contour value. -/
def c0 : Contour := []

/- An OpenCV collaborator whose decode always fails. -/
def cBNone : CVBackend :=
  ⟨fun _ => none, fun _ => .ok [], fun _ => .ok [], fun _ => 0, fun _ => 0,
   fun _ _ => [], fun _ => ⟨0, 0, 0⟩⟩

/- An OpenCV collaborator that decodes but whose color conversion raises. -/
def cBErr : CVBackend :=
  ⟨fun _ => some [], fun _ => .error "conversion failed", fun _ => .ok [], fun _ => 0,
   fun _ => 0, fun _ _ => [], fun _ => ⟨0, 0, 0⟩⟩

/- An OpenCV collaborator returning one non-degenerate contour of area 100
   for every mask. -/
def cBOne : CVBackend :=
  ⟨fun _ => some [], fun _ => .ok [], fun _ => .ok [c0], fun _ => 100, fun _ => 0,
   fun _ _ => [], fun _ => ⟨1, 0, 0⟩⟩

/- An OpenCV collaborator whose contours all have pixel area exactly 99. -/
def cB99 : CVBackend :=
  ⟨fun _ => some [], fun _ => .ok [], fun _ => .ok [c0], fun _ => 99, fun _ => 0,
   fun _ _ => [], fun _ => ⟨1, 0, 0⟩⟩

/- An OpenCV collaborator whose contours all have pixel area exactly 101. -/
def cB101 : CVBackend :=
  ⟨fun _ => some [], fun _ => .ok [], fun _ => .ok [c0], fun _ => 101, fun _ => 0,
   fun _ _ => [], fun _ => ⟨101, 50, 50⟩⟩

/- An OpenCV collaborator whose contours are degenerate: m00 is zero. -/
def cBZeroM : CVBackend :=
  ⟨fun _ => some [], fun _ => .ok [], fun _ => .ok [c0], fun _ => 100, fun _ => 0,
   fun _ _ => [], fun _ => ⟨0, 3, 4⟩⟩

theorem rightBoundary_iff (r : List Char) :
    rightBoundary r = true ↔ (r = [] ∨ ∃ c r₀, r = c :: r₀ ∧ isWordChar c = false) := by
  cases r with
  | nil => simp [rightBoundary]
  | cons c r₀ =>
    constructor
    · intro h
      refine Or.inr ⟨c, r₀, rfl, ?_⟩
      simpa [rightBoundary, Bool.not_eq_true'] using h
    · rintro (h | ⟨c', r', heq, h⟩)
      · cases h
      · injection heq with h1 h2
        subst h1
        simpa [rightBoundary, Bool.not_eq_true'] using h

theorem wordAt_iff (w : List Char) : ∀ s : List Char,
    wordAt w s = true ↔ ∃ r, s = w ++ r ∧ rightBoundary r = true := by
  induction w with
  | nil => intro s; simp [wordAt]
  | cons c w ih =>
    intro s
    cases s with
    | nil => simp [wordAt]
    | cons d s =>
      simp only [wordAt, Bool.and_eq_true, decide_eq_true_eq]
      constructor
      · rintro ⟨hcd, hw⟩
        obtain ⟨r, hr, hb⟩ := (ih s).mp hw
        subst hcd
        exact ⟨r, by rw [hr]; rfl, hb⟩
      · rintro ⟨r, hr, hb⟩
        rw [List.cons_append] at hr
        injection hr with h1 h2
        subst h1
        exact ⟨rfl, (ih s).mpr ⟨r, h2, hb⟩⟩

theorem scanWord_iff (w s : List Char) : ∀ prev : Bool,
    scanWord w prev s = true ↔
      ∃ l r, s = l ++ w ++ r ∧
        ((l = [] ∧ prev = false) ∨ ∃ l₀ c, l = l₀ ++ [c] ∧ isWordChar c = false) ∧
        rightBoundary r = true := by
  induction s with
  | nil =>
    intro prev
    rw [scanWord, Bool.and_eq_true, Bool.not_eq_true']
    constructor
    · rintro ⟨hp, hw⟩
      obtain ⟨r, hr, hb⟩ := (wordAt_iff w []).mp hw
      obtain ⟨hw0, hr0⟩ := List.append_eq_nil.mp hr.symm
      subst hw0; subst hr0
      exact ⟨[], [], rfl, Or.inl ⟨rfl, hp⟩, hb⟩
    · rintro ⟨l, r, heq, hl, hb⟩
      obtain ⟨h4, hr0⟩ := List.append_eq_nil.mp heq.symm
      obtain ⟨hl0, hw0⟩ := List.append_eq_nil.mp h4
      subst hl0; subst hw0; subst hr0
      rcases hl with ⟨-, hp⟩ | ⟨l₀, d, habs, -⟩
      · exact ⟨hp, rfl⟩
      · simp at habs
  | cons c s ih =>
    intro prev
    rw [scanWord, Bool.or_eq_true, Bool.and_eq_true, Bool.not_eq_true']
    constructor
    · rintro (⟨hp, hw⟩ | htail)
      · obtain ⟨r, hr, hb⟩ := (wordAt_iff w (c :: s)).mp hw
        exact ⟨[], r, by simpa using hr, Or.inl ⟨rfl, hp⟩, hb⟩
      · obtain ⟨l, r, heq, hl, hb⟩ := (ih (isWordChar c)).mp htail
        refine ⟨c :: l, r, by rw [heq]; rfl, ?_, hb⟩
        rcases hl with ⟨hl0, hpc⟩ | ⟨l₀, d, hld, hd⟩
        · subst hl0
          exact Or.inr ⟨[], c, rfl, hpc⟩
        · refine Or.inr ⟨c :: l₀, d, ?_, hd⟩
          rw [hld]; rfl
    · rintro ⟨l, r, heq, hl, hb⟩
      cases l with
      | nil =>
        rcases hl with ⟨-, hp⟩ | ⟨l₀, d, habs, -⟩
        · exact Or.inl ⟨hp, (wordAt_iff w (c :: s)).mpr ⟨r, by simpa using heq, hb⟩⟩
        · simp at habs
      | cons c' l =>
        have heq' : c :: s = c' :: ((l ++ w) ++ r) := by simpa using heq
        injection heq' with h1 h2
        subst h1
        refine Or.inr ((ih (isWordChar c)).mpr ⟨l, r, by simpa using h2, ?_, hb⟩)
        rcases hl with ⟨habs, -⟩ | ⟨l₀, d, hld, hd⟩
        · simp at habs
        · cases l₀ with
          | nil =>
            have h3 : c = d ∧ l = [] := by
              have h5 : c :: l = [d] := by simpa using hld
              injection h5 with h6 h7
              exact ⟨h6, h7⟩
            obtain ⟨hcd, hl0⟩ := h3
            subst hl0
            subst hcd
            exact Or.inl ⟨rfl, hd⟩
          | cons d' l₀ =>
            have heq2 : c :: l = d' :: (l₀ ++ [d]) := by simpa using hld
            injection heq2 with h3 h4
            exact Or.inr ⟨l₀, d, h4, hd⟩

theorem containsWord_iff (s w : List Char) :
    containsWord s w = true ↔ StandaloneWord w s := by
  rw [containsWord, scanWord_iff w s false, StandaloneWord]
  constructor
  · rintro ⟨l, r, heq, hl, hb⟩
    refine ⟨l, r, heq, ?_, (rightBoundary_iff r).mp hb⟩
    rcases hl with ⟨h0, -⟩ | h
    · exact Or.inl h0
    · exact Or.inr h
  · rintro ⟨l, r, heq, hl, hb⟩
    refine ⟨l, r, heq, ?_, (rightBoundary_iff r).mpr hb⟩
    rcases hl with h0 | h
    · exact Or.inl ⟨h0, rfl⟩
    · exact Or.inr h

theorem parseJudgeResponse_le_one (response : List String) : parseJudgeResponse response ≤ 1 := by
  cases response with
  | nil => simp [parseJudgeResponse]
  | cons first rest =>
    simp only [parseJudgeResponse]
    split
    · exact le_refl 1
    · split
      · exact Nat.zero_le 1
      · exact Nat.zero_le 1

theorem judge_answer_le_one (vlm : VLM) (q ma gt : String) : judge_answer vlm q ma gt ≤ 1 := by
  rw [judge_answer]
  cases vlm.inference (judge_prompt q gt ma) none (some 5) with
  | error e => exact Nat.zero_le 1
  | ok response => exact parseJudgeResponse_le_one response

theorem sum_eq_count_one (l : List Nat) (h : ∀ x ∈ l, x ≤ 1) : l.sum = l.count 1 := by
  induction l with
  | nil => rfl
  | cons a t ih =>
    have ha := h a (List.mem_cons_self a t)
    have ht := ih fun x hx => h x (List.mem_cons_of_mem a hx)
    rcases Nat.le_one_iff_eq_zero_or_eq_one.mp ha with rfl | rfl
    · simp [List.count_cons, ht]
    · simp [List.count_cons, ht]
      omega

theorem runLoop_complete (step : Row → Except String (String × Nat)) :
    ∀ (rows : List Row) (preds : List String) (scores : List Nat),
      (∀ r ∈ rows, stepOk step r = true) →
      runLoop step rows preds scores =
        (computeAccuracy (scores ++ rows.map (stepScoreOf step)),
         preds ++ rows.map (stepPredOf step)) := by
  intro rows
  induction rows with
  | nil => intro preds scores _; simp [runLoop]
  | cons row rest ih =>
    intro preds scores h
    have hok := h row (List.mem_cons_self row rest)
    cases hstep : step row with
    | error e => simp [stepOk, hstep] at hok
    | ok ps =>
      obtain ⟨p, s⟩ := ps
      simp only [runLoop, hstep]
      rw [ih (preds ++ [p]) (scores ++ [s]) fun r hr => h r (List.mem_cons_of_mem row hr)]
      simp [stepScoreOf, stepPredOf, hstep, List.append_assoc]

theorem runLoop_partial (step : Row → Except String (String × Nat)) :
    ∀ (pre : List Row) (row : Row) (post : List Row) (preds : List String)
      (scores : List Nat) (e : String),
      (∀ r ∈ pre, stepOk step r = true) → step row = .error e →
      runLoop step (pre ++ row :: post) preds scores = (0, preds ++ pre.map (stepPredOf step)) := by
  intro pre
  induction pre with
  | nil =>
    intro row post preds scores e _ herr
    simp only [List.nil_append, runLoop, herr, List.map_nil, List.append_nil]
  | cons q qs ih =>
    intro row post preds scores e h herr
    have hok := h q (List.mem_cons_self q qs)
    cases hstep : step q with
    | error e' => simp [stepOk, hstep] at hok
    | ok ps =>
      obtain ⟨p, s⟩ := ps
      simp only [List.cons_append, runLoop, hstep, List.append_eq]
      rw [ih row post (preds ++ [p]) (scores ++ [s]) e
        (fun r hr => h r (List.mem_cons_of_mem q hr)) herr]
      simp [stepPredOf, hstep, List.append_assoc]

theorem runLoop_snd (step : Row → Except String (String × Nat)) :
    ∀ (rows : List Row) (preds : List String) (scores : List Nat),
      (runLoop step rows preds scores).2 = (loopLists step rows preds scores).1 := by
  intro rows
  induction rows with
  | nil => intro preds scores; rfl
  | cons row rest ih =>
    intro preds scores
    cases hstep : step row with
    | error e => simp only [runLoop, loopLists, hstep]
    | ok ps =>
      obtain ⟨p, s⟩ := ps
      simp only [runLoop, loopLists, hstep]
      exact ih (preds ++ [p]) (scores ++ [s])

theorem loopLists_shape (step : Row → Except String (String × Nat)) :
    ∀ (rows : List Row) (preds : List String) (scores : List Nat),
      (loopLists step rows preds scores).1.length =
          preds.length + (rows.takeWhile fun r => stepOk step r).length
      ∧ (loopLists step rows preds scores).2.length =
          scores.length + (rows.takeWhile fun r => stepOk step r).length
      ∧ ∃ extra, (loopLists step rows preds scores).1 = preds ++ extra := by
  intro rows
  induction rows with
  | nil =>
    intro preds scores
    refine ⟨by simp [loopLists], by simp [loopLists], [], by simp [loopLists]⟩
  | cons row rest ih =>
    intro preds scores
    cases hstep : step row with
    | error e =>
      have hok : stepOk step row = false := by simp [stepOk, hstep]
      refine ⟨?_, ?_, [], ?_⟩ <;>
        simp [loopLists, hstep, List.takeWhile_cons, hok]
    | ok ps =>
      obtain ⟨p, s⟩ := ps
      have hok : stepOk step row = true := by simp [stepOk, hstep]
      obtain ⟨h1, h2, extra, h3⟩ := ih (preds ++ [p]) (scores ++ [s])
      refine ⟨?_, ?_, [p] ++ extra, ?_⟩
      · simp only [loopLists, hstep, h1]
        simp [List.takeWhile_cons, hok]
        omega
      · simp only [loopLists, hstep, h2]
        simp [List.takeWhile_cons, hok]
        omega
      · simp only [loopLists, hstep, h3]
        simp [List.append_assoc]

theorem processContours_color (b : CVBackend) (color : String) :
    ∀ (cnts : List Contour) (f : SceneFact), f ∈ processContours b color cnts → f.color = color := by
  intro cnts
  induction cnts with
  | nil => intro f hf; simp [processContours] at hf
  | cons cnt rest ih =>
    intro f hf
    rw [processContours] at hf
    split at hf
    · exact ih f hf
    · split at hf
      · exact ih f hf
      · rcases List.mem_cons.mp hf with rfl | hmem
        · rfl
        · exact ih f hmem

theorem zipWith_map_same {α β γ δ : Type} (f : β → γ → δ) (g : α → β) (h : α → γ) :
    ∀ l : List α, List.zipWith f (l.map g) (l.map h) = l.map fun x => f (g x) (h x) := by
  intro l
  induction l with
  | nil => rfl
  | cons a t ih => simp [List.zipWith, ih]

theorem redCombinedMask_pointwise (hsv : HSVImage) :
    redCombinedMask hsv =
      hsv.map fun row => row.map fun p =>
        inRangePix red2Lower red2Upper p || inRangePix redLower redUpper p := by
  rw [redCombinedMask, bitwiseOr, inRangeImg, inRangeImg]
  rw [zipWith_map_same (List.zipWith fun a b => a || b)
        (fun row => row.map (inRangePix red2Lower red2Upper))
        (fun row => row.map (inRangePix redLower redUpper)) hsv]
  refine List.map_congr_left fun row _ => ?_
  exact zipWith_map_same (fun a b => a || b)
    (inRangePix red2Lower red2Upper) (inRangePix redLower redUpper) row

theorem detectEntries_byColor (b : CVBackend) (hsv : HSVImage) :
    detectEntries b hsv COLOR_BOUNDS = detectByColor b hsv := by
  rw [detectByColor, COLOR_BOUNDS]
  simp only [detectEntries]
  rw [show processEntry b hsv ("red", redLower, redUpper) = .ok [] from rfl,
      show processEntry b hsv ("red2", red2Lower, red2Upper) =
        colorFacts b "red" (redCombinedMask hsv) from rfl,
      show processEntry b hsv ("green", greenLower, greenUpper) =
        colorFacts b "green" (inRangeImg hsv greenLower greenUpper) from rfl,
      show processEntry b hsv ("blue", blueLower, blueUpper) =
        colorFacts b "blue" (inRangeImg hsv blueLower blueUpper) from rfl,
      show processEntry b hsv ("yellow", yellowLower, yellowUpper) =
        colorFacts b "yellow" (inRangeImg hsv yellowLower yellowUpper) from rfl,
      show processEntry b hsv ("gray", grayLower, grayUpper) =
        colorFacts b "gray" (inRangeImg hsv grayLower grayUpper) from rfl]
  cases colorFacts b "red" (redCombinedMask hsv) <;>
    cases colorFacts b "green" (inRangeImg hsv greenLower greenUpper) <;>
    cases colorFacts b "blue" (inRangeImg hsv blueLower blueUpper) <;>
    cases colorFacts b "yellow" (inRangeImg hsv yellowLower yellowUpper) <;>
    cases colorFacts b "gray" (inRangeImg hsv grayLower grayUpper) <;>
    simp

/-- Claim C2: judge_answer lower-cases and trims the first completion string
returned by the judge model and returns 1 exactly when the result contains
the standalone word yes, and 0 in every other case: on a standalone no, on
an ambiguous completion, on an empty completion list, and on text such as
yesterday in which yes occurs only as a proper prefix of a longer word. -/
theorem judge_parsing (vlm : VLM) (q ma gt : String) (resp : List String)
    (h : vlm.inference (judge_prompt q gt ma) none (some 5) = .ok resp) :
    judge_answer vlm q ma gt = parseJudgeResponse resp
    ∧ parseJudgeResponse [] = 0
    ∧ (∀ first rest, resp = first :: rest →
        ((parseJudgeResponse resp = 1 ↔
            StandaloneWord yesWord (pyLower (pyStrip first.data)))
         ∧ (¬ StandaloneWord yesWord (pyLower (pyStrip first.data)) →
              parseJudgeResponse resp = 0)))
    ∧ ¬ StandaloneWord yesWord "yesterday".data
    ∧ parseJudgeResponse ["yesterday"] = 0 := by
  refine ⟨?_, rfl, ?_, ?_, by decide⟩
  · rw [judge_answer, h]
  · rintro first rest rfl
    have hiff : parseJudgeResponse (first :: rest) = 1 ↔
        containsWord (pyLower (pyStrip first.data)) yesWord = true := by
      simp only [parseJudgeResponse]
      by_cases hy : containsWord (pyLower (pyStrip first.data)) yesWord = true
      · simp [hy]
      · by_cases hn : containsWord (pyLower (pyStrip first.data)) noWord = true
        · simp [hy, hn]
        · simp [hy, hn]
    constructor
    · exact hiff.trans (containsWord_iff _ _)
    · intro hno
      rcases Nat.le_one_iff_eq_zero_or_eq_one.mp
        (parseJudgeResponse_le_one (first :: rest)) with h0 | h1
      · exact h0
      · exact absurd ((hiff.trans (containsWord_iff _ _)).mp h1) hno
  · intro hS
    exact absurd ((containsWord_iff _ _).mpr hS) (by decide)

theorem judge_parsing_witness :
    judge_answer cJudgeYes "q1" "a" "gt" = parseJudgeResponse ["Yes"]
    ∧ (parseJudgeResponse ["Yes"] = 1 ↔
        StandaloneWord yesWord (pyLower (pyStrip "Yes".data))) := by
  have h := judge_parsing cJudgeYes "q1" "a" "gt" ["Yes"] rfl
  exact ⟨h.1, (h.2.2.1 "Yes" [] rfl).1⟩

/-- Claim C10: when the lower-cased, trimmed first judge completion contains
both yes and no as standalone words, judge_answer returns 1, because the
check for yes takes precedence over the check for no. -/
theorem judge_yes_precedence (vlm : VLM) (q ma gt : String) (first : String)
    (rest : List String)
    (h : vlm.inference (judge_prompt q gt ma) none (some 5) = .ok (first :: rest))
    (hyes : StandaloneWord yesWord (pyLower (pyStrip first.data)))
    (_hno : StandaloneWord noWord (pyLower (pyStrip first.data))) :
    judge_answer vlm q ma gt = 1 := by
  rw [judge_answer, h]
  simp [parseJudgeResponse,
    (containsWord_iff (pyLower (pyStrip first.data)) yesWord).mpr hyes]

theorem judge_yes_precedence_witness :
    judge_answer cJudgeYesNo "q1" "a" "gt" = 1 :=
  judge_yes_precedence cJudgeYesNo "q1" "a" "gt" "yes and no" [] rfl
    ((containsWord_iff _ _).mp (by decide))
    ((containsWord_iff _ _).mp (by decide))

theorem computeAccuracy_spec (scores : List Nat) (hsc : ∀ x ∈ scores, x ≤ 1) :
    computeAccuracy scores = (scores.count 1 : Rat) / (scores.length : Rat)
    ∧ 0 ≤ computeAccuracy scores ∧ computeAccuracy scores ≤ 1 := by
  have hsum := sum_eq_count_one scores hsc
  by_cases h0 : scores = []
  · subst h0
    exact ⟨by simp [computeAccuracy], le_refl 0, by norm_num [computeAccuracy]⟩
  · have hlpos : 0 < scores.length := List.length_pos.mpr h0
    have hlq : (0 : Rat) < (scores.length : Rat) := by exact_mod_cast hlpos
    have hsl : scores.sum ≤ scores.length := by
      have h := List.sum_le_card_nsmul scores 1 hsc
      simpa using h
    refine ⟨?_, ?_, ?_⟩
    · rw [computeAccuracy, if_neg h0, hsum]
    · rw [computeAccuracy, if_neg h0]
      exact div_nonneg (Nat.cast_nonneg _) (le_of_lt hlq)
    · rw [computeAccuracy, if_neg h0, div_le_one hlq]
      exact_mod_cast hsl

theorem runLoop_accuracy_spec (step : Row → Except String (String × Nat))
    (rows : List Row) (hbound : ∀ r, stepScoreOf step r ≤ 1)
    (hok : ∀ r ∈ rows, stepOk step r = true) :
    (runLoop step rows [] []).1 =
        ((rows.map (stepScoreOf step)).count 1 : Rat) / (rows.length : Rat)
    ∧ 0 ≤ (runLoop step rows [] []).1 ∧ (runLoop step rows [] []).1 ≤ 1 := by
  rw [runLoop_complete step rows [] [] hok]
  have hsc : ∀ x ∈ rows.map (stepScoreOf step), x ≤ 1 := by
    intro x hx
    obtain ⟨r, -, rfl⟩ := List.mem_map.mp hx
    exact hbound r
  obtain ⟨h1, h2, h3⟩ := computeAccuracy_spec (rows.map (stepScoreOf step)) hsc
  simp only [List.nil_append]
  exact ⟨by rw [h1, List.length_map], h2, h3⟩

theorem zeroShotStep_ok_pair (vlm judge : VLM) (r : Row) (p : String) (s : Nat)
    (h : zeroShotStep vlm judge r = .ok (p, s)) :
    s = judge_answer judge r.question p r.answer := by
  rw [zeroShotStep] at h
  cases hinf : vlm.inference r.question (some r.image_path) none with
  | error e => rw [hinf] at h; exact Except.noConfusion h
  | ok l =>
    rw [hinf] at h
    injection h with h'
    rw [Prod.mk.injEq] at h'
    obtain ⟨h1, h2⟩ := h'
    rw [← h2, h1]

theorem classicStep_ok_pair (cv : CVBackend) (vlm judge : VLM) (r : Row) (p : String) (s : Nat)
    (h : classicStep cv vlm judge r = .ok (p, s)) :
    s = judge_answer judge r.question p r.answer := by
  rw [classicStep] at h
  cases hinf : vlm.inference
      (enhancedPrompt (detect_objects cv r.image_path) r.question) (some r.image_path) none with
  | error e => rw [hinf] at h; exact Except.noConfusion h
  | ok l =>
    rw [hinf] at h
    injection h with h'
    rw [Prod.mk.injEq] at h'
    obtain ⟨h1, h2⟩ := h'
    rw [← h2, h1]

theorem dlStep_ok_pair (vlm judge : VLM) (r : Row) (p : String) (s : Nat)
    (h : dlStep vlm judge r = .ok (p, s)) :
    s = judge_answer judge r.question p r.answer := by
  rw [dlStep] at h
  split at h
  · exact Except.noConfusion h
  · split at h
    · exact Except.noConfusion h
    · split at h
      · exact Except.noConfusion h
      · injection h with h'
        rw [Prod.mk.injEq] at h'
        obtain ⟨h1, h2⟩ := h'
        rw [← h2, h1]

theorem zeroShotStep_score_le_one (vlm judge : VLM) (r : Row) :
    stepScoreOf (zeroShotStep vlm judge) r ≤ 1 := by
  rw [stepScoreOf]
  cases h : zeroShotStep vlm judge r with
  | error e => exact Nat.zero_le 1
  | ok ps =>
    obtain ⟨p, s⟩ := ps
    rw [zeroShotStep_ok_pair vlm judge r p s h]
    exact judge_answer_le_one judge r.question p r.answer

theorem classicStep_score_le_one (cv : CVBackend) (vlm judge : VLM) (r : Row) :
    stepScoreOf (classicStep cv vlm judge) r ≤ 1 := by
  rw [stepScoreOf]
  cases h : classicStep cv vlm judge r with
  | error e => exact Nat.zero_le 1
  | ok ps =>
    obtain ⟨p, s⟩ := ps
    rw [classicStep_ok_pair cv vlm judge r p s h]
    exact judge_answer_le_one judge r.question p r.answer

theorem dlStep_score_le_one (vlm judge : VLM) (r : Row) :
    stepScoreOf (dlStep vlm judge) r ≤ 1 := by
  rw [stepScoreOf]
  cases h : dlStep vlm judge r with
  | error e => exact Nat.zero_le 1
  | ok ps =>
    obtain ⟨p, s⟩ := ps
    rw [dlStep_ok_pair vlm judge r p s h]
    exact judge_answer_le_one judge r.question p r.answer

/-- Claim C3: on a completed run each pipeline driver returns an accuracy
equal to the number of rows scored 1 divided by the number of rows judged,
a value lying in the closed interval from 0 to 1; on the empty dataset each
driver returns exactly 0 together with an empty predictions list, and no
division by zero occurs. -/
theorem driver_accuracy (cv : CVBackend) (vlm judge : VLM) (rows : List Row) :
    ((∀ r ∈ rows, stepOk (zeroShotStep vlm judge) r = true) →
       (run_zero_shot vlm rows judge).1 =
           ((rows.map (stepScoreOf (zeroShotStep vlm judge))).count 1 : Rat) /
             (rows.length : Rat)
       ∧ 0 ≤ (run_zero_shot vlm rows judge).1 ∧ (run_zero_shot vlm rows judge).1 ≤ 1)
    ∧ run_zero_shot vlm [] judge = (0, [])
    ∧ ((∀ r ∈ rows, stepOk (classicStep cv vlm judge) r = true) →
       (run_classic_agent_pipeline cv vlm rows judge).1 =
           ((rows.map (stepScoreOf (classicStep cv vlm judge))).count 1 : Rat) /
             (rows.length : Rat)
       ∧ 0 ≤ (run_classic_agent_pipeline cv vlm rows judge).1
       ∧ (run_classic_agent_pipeline cv vlm rows judge).1 ≤ 1)
    ∧ run_classic_agent_pipeline cv vlm [] judge = (0, [])
    ∧ ((∀ r ∈ rows, stepOk (dlStep vlm judge) r = true) →
       (run_dl_agent_pipeline vlm rows judge).1 =
           ((rows.map (stepScoreOf (dlStep vlm judge))).count 1 : Rat) /
             (rows.length : Rat)
       ∧ 0 ≤ (run_dl_agent_pipeline vlm rows judge).1
       ∧ (run_dl_agent_pipeline vlm rows judge).1 ≤ 1)
    ∧ run_dl_agent_pipeline vlm [] judge = (0, []) := by
  refine ⟨?_, rfl, ?_, rfl, ?_, rfl⟩
  · intro hok
    exact runLoop_accuracy_spec (zeroShotStep vlm judge) rows
      (zeroShotStep_score_le_one vlm judge) hok
  · intro hok
    exact runLoop_accuracy_spec (classicStep cv vlm judge) rows
      (classicStep_score_le_one cv vlm judge) hok
  · intro hok
    exact runLoop_accuracy_spec (dlStep vlm judge) rows
      (dlStep_score_le_one vlm judge) hok

theorem driver_accuracy_witness :
    (run_zero_shot cVlmOk [cRow1] cJudgeYes).1 =
        (([cRow1].map (stepScoreOf (zeroShotStep cVlmOk cJudgeYes))).count 1 : Rat) /
          (([cRow1] : List Row).length : Rat)
    ∧ 0 ≤ (run_zero_shot cVlmOk [cRow1] cJudgeYes).1
    ∧ run_zero_shot cVlmOk [] cJudgeYes = (0, [])
    ∧ run_classic_agent_pipeline cBNone cVlmOk [] cJudgeYes = (0, [])
    ∧ (run_dl_agent_pipeline cVlmOk [cRow1] cJudgeYes).1 ≤ 1 := by
  have h := driver_accuracy cBNone cVlmOk cJudgeYes [cRow1]
  exact ⟨(h.1 (by decide)).1, (h.1 (by decide)).2.1, h.2.1, h.2.2.2.1,
         (h.2.2.2.2.1 (by decide)).2.2⟩

/-- Claim C1 counterexample: with a model backend that completes the rows q1
and q2 (both judged correct, score 1) and raises on the row q3, run_zero_shot
returns accuracy 0 together with the two collected predictions, not the
accuracy 2 / 2 = 1 computed over the two completed rows; this refutes the
claim as stated. -/
theorem driver_partial_accuracy_cex :
    run_zero_shot cexVlm [cRow1, cRow2, cRow3] cJudgeYes = (0, ["ans", "ans"])
    ∧ stepScoreOf (zeroShotStep cexVlm cJudgeYes) cRow1 = 1
    ∧ stepScoreOf (zeroShotStep cexVlm cJudgeYes) cRow2 = 1
    ∧ (0 : Rat) ≠ 2 / 2 := by
  refine ⟨by decide, by decide, by decide, by norm_num⟩

/-- Claim C1 (amended): on an unexpected exception raised while processing a
row after k rows have been fully judged, each pipeline driver catches the
exception and returns the k predictions already collected, but the accuracy
it returns is the constant 0.0, not the accuracy computed over the k
completed rows. -/
theorem driver_partial_failure (cv : CVBackend) (vlm judge : VLM)
    (pre : List Row) (row : Row) (post : List Row) :
    ((∀ r ∈ pre, stepOk (zeroShotStep vlm judge) r = true) →
      ∀ e, zeroShotStep vlm judge row = .error e →
      run_zero_shot vlm (pre ++ row :: post) judge =
        (0, pre.map (stepPredOf (zeroShotStep vlm judge))))
    ∧ ((∀ r ∈ pre, stepOk (classicStep cv vlm judge) r = true) →
      ∀ e, classicStep cv vlm judge row = .error e →
      run_classic_agent_pipeline cv vlm (pre ++ row :: post) judge =
        (0, pre.map (stepPredOf (classicStep cv vlm judge))))
    ∧ ((∀ r ∈ pre, stepOk (dlStep vlm judge) r = true) →
      ∀ e, dlStep vlm judge row = .error e →
      run_dl_agent_pipeline vlm (pre ++ row :: post) judge =
        (0, pre.map (stepPredOf (dlStep vlm judge)))) := by
  refine ⟨?_, ?_, ?_⟩ <;>
    · intro hok e herr
      have h := runLoop_partial _ pre row post [] [] e hok herr
      simpa using h

theorem driver_partial_failure_witness :
    run_zero_shot cexVlm ([cRow1, cRow2] ++ cRow3 :: []) cJudgeYes =
      (0, [cRow1, cRow2].map (stepPredOf (zeroShotStep cexVlm cJudgeYes)))
    ∧ run_classic_agent_pipeline cBNone cFailVlm ([] ++ cRow1 :: []) cJudgeYes =
        (0, List.map (stepPredOf (classicStep cBNone cFailVlm cJudgeYes)) [])
    ∧ run_dl_agent_pipeline cFailVlm ([] ++ cRow1 :: []) cJudgeYes =
        (0, List.map (stepPredOf (dlStep cFailVlm cJudgeYes)) []) := by
  refine ⟨?_, ?_, ?_⟩
  · exact (driver_partial_failure cBNone cexVlm cJudgeYes [cRow1, cRow2] cRow3 []).1
      (by decide) "backend failure" rfl
  · exact (driver_partial_failure cBNone cFailVlm cJudgeYes [] cRow1 []).2.1
      (by simp) "backend down" rfl
  · exact (driver_partial_failure cBNone cFailVlm cJudgeYes [] cRow1 []).2.2
      (by simp) "backend down" rfl

/-- Claim C5: at every exit of the driver loop, normal completion or halt on
a mid-row failure, the number of predictions collected equals the number of
scores collected, both equal to the number of rows successfully iterated
(the longest prefix of rows whose step succeeds); predictions already
collected are preserved as a prefix of the final list; and the predictions
list each driver returns is exactly the loop predictions list at exit. -/
theorem loop_invariant (cv : CVBackend) (vlm judge : VLM)
    (step : Row → Except String (String × Nat)) (rows : List Row)
    (preds : List String) (scores : List Nat)
    (hlen : preds.length = scores.length) :
    ((loopLists step rows preds scores).1.length = (loopLists step rows preds scores).2.length
     ∧ (loopLists step rows preds scores).1.length =
         preds.length + (rows.takeWhile fun r => stepOk step r).length
     ∧ ∃ extra, (loopLists step rows preds scores).1 = preds ++ extra)
    ∧ (run_zero_shot vlm rows judge).2 = (loopLists (zeroShotStep vlm judge) rows [] []).1
    ∧ (run_classic_agent_pipeline cv vlm rows judge).2 =
        (loopLists (classicStep cv vlm judge) rows [] []).1
    ∧ (run_dl_agent_pipeline vlm rows judge).2 = (loopLists (dlStep vlm judge) rows [] []).1 := by
  obtain ⟨h1, h2, extra, h3⟩ := loopLists_shape step rows preds scores
  exact ⟨⟨by rw [h1, h2, hlen], h1, extra, h3⟩,
         runLoop_snd (zeroShotStep vlm judge) rows [] [],
         runLoop_snd (classicStep cv vlm judge) rows [] [],
         runLoop_snd (dlStep vlm judge) rows [] []⟩

theorem loop_invariant_witness :
    (loopLists (zeroShotStep cVlmOk cJudgeYes) [cRow1] [] []).1.length =
        (loopLists (zeroShotStep cVlmOk cJudgeYes) [cRow1] [] []).2.length
    ∧ (run_zero_shot cVlmOk [cRow1] cJudgeYes).2 =
        (loopLists (zeroShotStep cVlmOk cJudgeYes) [cRow1] [] []).1 := by
  have h := loop_invariant cBNone cVlmOk cJudgeYes
    (zeroShotStep cVlmOk cJudgeYes) [cRow1] [] [] rfl
  exact ⟨h.1.1, h.2.1⟩

theorem colorFacts_ok_color (b : CVBackend) (c : String) (m : Mask) (facts : List SceneFact)
    (h : colorFacts b c m = .ok facts) : ∀ f ∈ facts, f.color = c := by
  rw [colorFacts] at h
  cases hfc : b.findContours m with
  | error e => rw [hfc] at h; exact Except.noConfusion h
  | ok cnts =>
    rw [hfc] at h
    injection h with h'
    subst h'
    exact processContours_color b c cnts

theorem processEntry_color (b : CVBackend) (hsv : HSVImage)
    (e : String × (Nat × Nat × Nat) × (Nat × Nat × Nat)) (facts : List SceneFact)
    (h : processEntry b hsv e = .ok facts) :
    ∀ f ∈ facts, f.color = "red" ∨ (f.color = e.1 ∧ e.1 ≠ "red2") := by
  rw [processEntry] at h
  split_ifs at h with h1 h2
  · intro f hf
    exact Or.inl (colorFacts_ok_color b "red" _ facts h f hf)
  · injection h with h'
    subst h'
    intro f hf
    exact absurd hf (List.not_mem_nil f)
  · intro f hf
    exact Or.inr ⟨colorFacts_ok_color b e.1 _ facts h f hf, h1⟩

theorem detectEntries_colors (b : CVBackend) (hsv : HSVImage) :
    ∀ (entries : List (String × (Nat × Nat × Nat) × (Nat × Nat × Nat)))
      (facts : List SceneFact),
      detectEntries b hsv entries = .ok facts →
      ∀ f ∈ facts, f.color = "red" ∨ ∃ e ∈ entries, f.color = e.1 ∧ e.1 ≠ "red2" := by
  intro entries
  induction entries with
  | nil =>
    intro facts h f hf
    rw [detectEntries] at h
    injection h with h'
    subst h'
    exact absurd hf (List.not_mem_nil f)
  | cons e rest ih =>
    intro facts h f hf
    rw [detectEntries] at h
    cases hpe : processEntry b hsv e with
    | error err => rw [hpe] at h; exact Except.noConfusion h
    | ok fs =>
      rw [hpe] at h
      cases hde : detectEntries b hsv rest with
      | error err => rw [hde] at h; exact Except.noConfusion h
      | ok more =>
        rw [hde] at h
        injection h with h'
        subst h'
        rcases List.mem_append.mp hf with hf1 | hf2
        · rcases processEntry_color b hsv e fs hpe f hf1 with hr | ⟨hc, hne⟩
          · exact Or.inl hr
          · exact Or.inr ⟨e, List.mem_cons_self e rest, hc, hne⟩
        · rcases ih more hde f hf2 with hr | ⟨e', he', hc, hne⟩
          · exact Or.inl hr
          · exact Or.inr ⟨e', List.mem_cons_of_mem e he', hc, hne⟩

/-- Claim C4: pixels in either of the two red HSV ranges classify as the
single color red: the red2 range mask is OR-combined pixelwise with the red
range mask into one combined mask before contour extraction, the
COLOR_BOUNDS loop is equal to a by-color pass in which red is processed
exactly once through the combined mask, and no emitted fact ever carries a
second red label red2. -/
theorem red_single_mask (b : CVBackend) (hsv : HSVImage) :
    redCombinedMask hsv =
        (hsv.map fun row => row.map fun p =>
          inRangePix red2Lower red2Upper p || inRangePix redLower redUpper p)
    ∧ detectEntries b hsv COLOR_BOUNDS = detectByColor b hsv
    ∧ ∀ facts, detectEntries b hsv COLOR_BOUNDS = .ok facts →
        ∀ f ∈ facts, f.color ≠ "red2" := by
  refine ⟨redCombinedMask_pointwise hsv, detectEntries_byColor b hsv, ?_⟩
  intro facts hfacts f hf
  rcases detectEntries_colors b hsv COLOR_BOUNDS facts hfacts f hf with hr | ⟨e, _, hc, hne⟩
  · rw [hr]; decide
  · rw [hc]; exact hne

theorem red_single_mask_witness :
    (⟨"red", shapeOf cBOne c0, centroidOf cBOne c0⟩ : SceneFact).color ≠ "red2" :=
  (red_single_mask cBOne []).2.2
    [⟨"red", shapeOf cBOne c0, centroidOf cBOne c0⟩,
     ⟨"green", shapeOf cBOne c0, centroidOf cBOne c0⟩,
     ⟨"blue", shapeOf cBOne c0, centroidOf cBOne c0⟩,
     ⟨"yellow", shapeOf cBOne c0, centroidOf cBOne c0⟩,
     ⟨"gray", shapeOf cBOne c0, centroidOf cBOne c0⟩]
    rfl ⟨"red", shapeOf cBOne c0, centroidOf cBOne c0⟩ (List.mem_cons_self _ _)

/-- Claim C6: detect_objects emits a scene fact for a contour only when the
pixel area of the contour reaches the fixed noise threshold 100: a contour
with area below 100, for example exactly 99, contributes nothing, and a
non-degenerate contour with area at least 100, for example exactly 101,
contributes its fact. -/
theorem contour_area_threshold (b : CVBackend) (color : String) (cnt : Contour)
    (pre post : List Contour) :
    (b.contourArea cnt < 100 →
       processContours b color (pre ++ cnt :: post) = processContours b color (pre ++ post))
    ∧ (100 ≤ b.contourArea cnt → (b.moments cnt).m00 ≠ 0 →
       processContours b color (cnt :: post) =
         ⟨color, shapeOf b cnt, centroidOf b cnt⟩ :: processContours b color post) := by
  constructor
  · intro h
    induction pre with
    | nil => rw [List.nil_append, List.nil_append, processContours, if_pos h]
    | cons q qs ih =>
      rw [List.cons_append, List.cons_append, processContours, processContours, ih]
  · intro h1 h2
    rw [processContours, if_neg (not_lt.mpr h1), if_neg h2]

theorem contour_area_threshold_witness :
    processContours cB99 "red" ([] ++ c0 :: []) = processContours cB99 "red" ([] ++ [])
    ∧ processContours cB101 "red" (c0 :: []) =
        ⟨"red", shapeOf cB101 c0, centroidOf cB101 c0⟩ :: processContours cB101 "red" [] :=
  ⟨(contour_area_threshold cB99 "red" c0 [] []).1 (by decide),
   (contour_area_threshold cB101 "red" c0 [] []).2 (by decide) (by decide)⟩

/-- Claim C9: a contour whose zeroth moment m00 is zero is skipped, and the
centroid of every emitted fact comes from a contour with non-zero m00 and
area at least 100, computed as the truncated quotients of the first moments
by m00, so the centroid divisions are only taken on non-degenerate
contours. -/
theorem centroid_guard (b : CVBackend) (color : String) (cnt : Contour)
    (pre post cnts : List Contour) :
    ((b.moments cnt).m00 = 0 →
       processContours b color (pre ++ cnt :: post) = processContours b color (pre ++ post))
    ∧ ∀ f ∈ processContours b color cnts,
        ∃ c ∈ cnts, (b.moments c).m00 ≠ 0 ∧ 100 ≤ b.contourArea c ∧
          f.coords = centroidOf b c := by
  constructor
  · intro h
    induction pre with
    | nil =>
      rw [List.nil_append, List.nil_append, processContours]
      by_cases h1 : b.contourArea cnt < 100
      · rw [if_pos h1]
      · rw [if_neg h1, if_pos h]
    | cons q qs ih =>
      rw [List.cons_append, List.cons_append, processContours, processContours, ih]
  · induction cnts with
    | nil =>
      intro f hf
      simp [processContours] at hf
    | cons c cs ih =>
      intro f hf
      rw [processContours] at hf
      split at hf
      · obtain ⟨c', hc', hm, ha, hcoords⟩ := ih f hf
        exact ⟨c', List.mem_cons_of_mem c hc', hm, ha, hcoords⟩
      · split at hf
        · obtain ⟨c', hc', hm, ha, hcoords⟩ := ih f hf
          exact ⟨c', List.mem_cons_of_mem c hc', hm, ha, hcoords⟩
        · rcases List.mem_cons.mp hf with rfl | hmem
          · rename_i h1 h2
            exact ⟨c, List.mem_cons_self c cs, h2, not_lt.mp h1, rfl⟩
          · obtain ⟨c', hc', hm, ha, hcoords⟩ := ih f hmem
            exact ⟨c', List.mem_cons_of_mem c hc', hm, ha, hcoords⟩

theorem centroid_guard_witness :
    processContours cBZeroM "red" ([] ++ c0 :: []) = processContours cBZeroM "red" ([] ++ []) :=
  (centroid_guard cBZeroM "red" c0 [] [] []).1 (by decide)

/-- Claim C7: detect_objects never propagates an error to its caller: when
the image cannot be decoded it returns the empty fact list, and when a
modelled internal operation fails during detection it is caught and the
empty fact list is returned as well. -/
theorem detect_never_raises (b : CVBackend) (path : String) :
    (b.imread path = none → detect_objects b path = [])
    ∧ (∀ img e, b.imread path = some img → detectDecoded b img = .error e →
        detect_objects b path = []) := by
  constructor
  · intro h
    simp [detect_objects, h]
  · intro img e h1 h2
    simp [detect_objects, h1, h2]

theorem detect_never_raises_witness :
    detect_objects cBNone "missing.png" = [] ∧ detect_objects cBErr "img.png" = [] :=
  ⟨(detect_never_raises cBNone "missing.png").1 rfl,
   (detect_never_raises cBErr "img.png").2 [] "conversion failed" rfl rfl⟩

/-- Claim C8: in the DL agent pipeline an empty completion list at the Plan
step is replaced by the fixed placeholder text No plan generated. and at the
Extract step by No context extracted., and whenever both steps produce a
value the final synthesis call is made with the prompt built from exactly
those plan and context texts. -/
theorem dl_placeholders (vlm judge : VLM) (row : Row) :
    (vlm.inference (dlPlanPrompt row.question) (some row.image_path) (some 100) = .ok [] →
       dlPlan vlm row = .ok "No plan generated.")
    ∧ (vlm.inference dlExtractPrompt (some row.image_path) (some 150) = .ok [] →
       dlContext vlm row = .ok "No context extracted.")
    ∧ (∀ plan context, dlPlan vlm row = .ok plan → dlContext vlm row = .ok context →
       dlStep vlm judge row =
         (match vlm.inference (dlFinalPrompt row.question plan context)
             (some row.image_path) none with
          | .error e => .error e
          | .ok l => .ok (firstOrEmpty l,
              judge_answer judge row.question (firstOrEmpty l) row.answer))) := by
  refine ⟨?_, ?_, ?_⟩
  · intro h
    simp [dlPlan, h]
  · intro h
    simp [dlContext, h]
  · intro plan context h1 h2
    simp only [dlStep, h1, h2]

theorem dl_placeholders_witness :
    dlPlan cVlmEmpty cRow1 = .ok "No plan generated."
    ∧ dlContext cVlmEmpty cRow1 = .ok "No context extracted."
    ∧ dlStep cVlmEmpty cJudgeYes cRow1 =
        .ok ("", judge_answer cJudgeYes cRow1.question "" cRow1.answer) := by
  have h := dl_placeholders cVlmEmpty cJudgeYes cRow1
  refine ⟨h.1 rfl, h.2.1 rfl, ?_⟩
  rw [h.2.2 "No plan generated." "No context extracted." (h.1 rfl) (h.2.1 rfl)]
  rfl
